import Mathlib

/-!
Verification development for the Epilog laser-engraver driver
(cups-epilog.c).  The definitions below are shallow embeddings of the
C functions of the driver: the run-length packer of `generate_raster`,
the per-pixel colour separation, the configuration clamping of
`range_checks`, the vector-command interpreter `generate_vector`, the
job composer `generate_pjl`, and the LPD delivery functions
`printer_connect` / `printer_send`.  Machine integers are modelled as
`Nat`/`Int` (all values involved stay far below any overflow bound),
file reads as explicit lists, and socket traffic as explicit traces.
-/

/-! ## Run-length packing (generate_raster, packing loop)

The C code packs the active byte range `buf[l..r)` of a scan line:

  while (l < r) {
      for (p = l; p < r && p < l + 128 && buf[p] == buf[l]; p++);
      if (p - l >= 2) { pack[n++] = 257 - (p - l); pack[n++] = buf[l]; l = p; }
      else {
          for (p = l; p < r && p < l + 127 && (p + 1 == r || buf[p] != buf[p + 1]); p++);
          pack[n++] = p - l - 1;
          while (l < p) pack[n++] = buf[l++];
      }
  }

and then pads the emitted stream to a multiple of 8 bytes with 0x80
(`while (r & 7) { r++; fputc(0x80, pjl_file); }`).
-/

/-- Length of the leading run of bytes equal to `v`, capped by the fuel
(the C scan condition `p < l + 128` with fuel 128). -/
def runLen (v : Nat) : Nat → List Nat → Nat
  | 0, _ => 0
  | _ + 1, [] => 0
  | f + 1, a :: t => if a = v then 1 + runLen v f t else 0

/-- Length of the leading literal stretch: bytes are taken while the
current byte differs from its successor (or is the last byte), capped by
the fuel (the C condition `p < l + 127` with fuel 127). -/
def litLen : Nat → List Nat → Nat
  | 0, _ => 0
  | _ + 1, [] => 0
  | _ + 1, [_] => 1
  | f + 1, a :: b :: t => if a = b then 0 else 1 + litLen f (b :: t)

/-- Fuelled packing loop; one unit of fuel per loop iteration (each
iteration consumes at least one input byte, so `xs.length` fuel
suffices). -/
def packF : Nat → List Nat → List Nat
  | 0, _ => []
  | _ + 1, [] => []
  | f + 1, a :: t =>
    let k := runLen a 128 (a :: t)
    if 2 ≤ k then
      (257 - k) :: a :: packF f ((a :: t).drop k)
    else
      let m := litLen 127 (a :: t)
      (m - 1) :: ((a :: t).take m ++ packF f ((a :: t).drop m))

/-- The run-length packer of `generate_raster` applied to the active
byte range of one scan line. -/
def pack (xs : List Nat) : List Nat := packF xs.length xs

/-- Padding of the packed stream to a multiple of 8 bytes with the
filler byte 0x80 = 128. -/
def padTo8 (xs : List Nat) : List Nat :=
  xs ++ List.replicate ((8 - xs.length % 8) % 8) 128

/-- Decoder for the packing scheme as the spec describes it (the
device's TIFF-style raster compression): a control byte above 128
repeats the next byte `257 − control` times, a control byte below 128
is followed by `control + 1` literal bytes, and the filler byte 128 is
a no-op. -/
def unpack : List Nat → List Nat
  | [] => []
  | c :: rest =>
    if c = 128 then unpack rest
    else if 128 < c then
      match rest with
      | [] => []
      | v :: rest2 => List.replicate (257 - c) v ++ unpack rest2
    else
      rest.take (c + 1) ++ unpack (rest.drop (c + 1))
termination_by xs => xs.length
decreasing_by
  all_goals simp only [List.length_cons, List.length_drop]
  all_goals omega

/-- Worst-case input family for the packer: `k` copies of the byte
pattern 1,2,2 (a 1-byte literal followed by a length-2 run, costing 4
output bytes per 3 input bytes). -/
def c10pattern : Nat → List Nat
  | 0 => []
  | k + 1 => 1 :: 2 :: 2 :: c10pattern k

/-! ## Configuration and range clamping (`range_checks`)

The driver's configuration globals: raster power/speed, resolution,
screen size, vector frequency/power/speed, raster mode, autofocus, and
the tile repeat counts.  `range_checks` is the literal translation of
the clamping function run by `main` before any encoding. -/

/-- The configuration globals of the driver that `range_checks` and
the encoders consume. -/
structure JobCfg where
  raster_power : Int
  raster_speed : Int
  resolution : Int
  screen_size : Int
  vector_freq : Int
  vector_power : Int
  vector_speed : Int
  raster_mode : Char
  focus : Int
  x_repeat : Nat
  y_repeat : Nat
deriving DecidableEq

/-- Translation of `range_checks` (cups-epilog.c): each bounded field
is clamped by an if / else-if chain; `raster_mode`, `focus` and the
repeat counts are untouched. -/
def range_checks (c : JobCfg) : JobCfg :=
  { c with
    raster_power :=
      if 100 < c.raster_power then 100
      else if c.raster_power < 0 then 0 else c.raster_power,
    raster_speed :=
      if 100 < c.raster_speed then 100
      else if c.raster_speed < 1 then 1 else c.raster_speed,
    resolution :=
      if 1200 < c.resolution then 1200
      else if c.resolution < 75 then 75 else c.resolution,
    screen_size :=
      if c.screen_size < 1 then 1 else c.screen_size,
    vector_freq :=
      if c.vector_freq < 10 then 10
      else if 5000 < c.vector_freq then 5000 else c.vector_freq,
    vector_power :=
      if 100 < c.vector_power then 100
      else if c.vector_power < 0 then 0 else c.vector_power,
    vector_speed :=
      if 100 < c.vector_speed then 100
      else if c.vector_speed < 1 then 1 else c.vector_speed }

/-- The documented bounds of the bounded configuration fields. -/
def cfgInRange (c : JobCfg) : Prop :=
  0 ≤ c.raster_power ∧ c.raster_power ≤ 100 ∧
  1 ≤ c.raster_speed ∧ c.raster_speed ≤ 100 ∧
  75 ≤ c.resolution ∧ c.resolution ≤ 1200 ∧
  1 ≤ c.screen_size ∧
  10 ≤ c.vector_freq ∧ c.vector_freq ≤ 5000 ∧
  0 ≤ c.vector_power ∧ c.vector_power ≤ 100 ∧
  1 ≤ c.vector_speed ∧ c.vector_speed ≤ 100

instance (c : JobCfg) : Decidable (cfgInRange c) := by
  unfold cfgInRange
  infer_instance

/-! ## Colour separation (`generate_raster`, case 'c')

Per pixel the C code classifies the three channel bytes:

  for (c = 0; c < 3; c++) {
      if (*f > 240) p |= (1 << c); else { n++; v += *f; }
      f++;
  }
  if (n) v /= n; else { p = 0; v = 255; }
  if (p != pass) v = 255;
  *t++ = 255 - v;

and the separation loop runs `pass` over `0 .. passes-1` with
`passes = 7` in colour mode.  The device raster power command is
printed as `100` whenever the mode is colour or grey. -/

/-- Number of separation passes: 7 in colour mode, otherwise 1. -/
def rasterPasses (raster_mode : Char) : Nat :=
  if raster_mode = 'c' then 7 else 1

/-- The pass indices iterated by the separation loop
(`for (pass = 0; pass < passes; pass++)`). -/
def colourPassIndices : List Nat := List.range (rasterPasses 'c')

/-- The 3-bit mask of saturated (> 240) channels of one pixel. -/
def colourMask (c0 c1 c2 : Nat) : Nat :=
  (if 240 < c0 then 1 else 0) + (if 240 < c1 then 2 else 0) +
    (if 240 < c2 then 4 else 0)

/-- Number of non-saturated channels of one pixel. -/
def colourN (c0 c1 c2 : Nat) : Nat :=
  (if 240 < c0 then 0 else 1) + (if 240 < c1 then 0 else 1) +
    (if 240 < c2 then 0 else 1)

/-- Sum of the non-saturated channel values of one pixel. -/
def colourV (c0 c1 c2 : Nat) : Nat :=
  (if 240 < c0 then 0 else c0) + (if 240 < c1 then 0 else c1) +
    (if 240 < c2 then 0 else c2)

/-- Average of the non-saturated channel values (the pixel's
luminance). -/
def colourLum (c0 c1 c2 : Nat) : Nat := colourV c0 c1 c2 / colourN c0 c1 c2

/-- The byte produced for one pixel on one separation pass (the value
stored through `*t++`). -/
def colourPixel (c0 c1 c2 pass : Nat) : Nat :=
  let p := colourMask c0 c1 c2
  let n := colourN c0 c1 c2
  let v := colourV c0 c1 c2
  let pv : Nat × Nat := if n ≠ 0 then (p, v / n) else (0, 255)
  let v2 := if pv.1 ≠ pass then 255 else pv.2
  255 - v2

/-- The raster power printed in the `\e&y%dP` device command: forced to
100 in colour and grey modes, the configured power otherwise. -/
def rasterPowerField (raster_mode : Char) (raster_power : Int) : Int :=
  if raster_mode = 'c' ∨ raster_mode = 'g' then 100 else raster_power

/-! ## Device output items

One constructor per `fprintf`/`fputc` of `generate_pjl`,
`generate_raster` and `generate_vector`; the comment gives the format
string.  The emission trace of each function is a `List Out`. -/

inductive Out
  | pjlJobHeader                -- "\e%-12345X@PJL JOB NAME=%s\r\n"
  | pjlEnterLang                -- "\eE@PJL ENTER LANGUAGE=PCL\r\n"
  | autofocusCmd (f : Int)      -- "\e&y%dA"
  | leftReg                     -- "\e&l0U"
  | topReg                      -- "\e&l0Z"
  | resolutionCmd (r : Int)     -- "\e&u%dD"
  | posX0                       -- "\e*p0X"
  | posY0                       -- "\e*p0Y"
  | pclRes (r : Int)            -- "\e*t%dR"
  | rasterYC                    -- "\e&y0C"
  | pjlReset                    -- "\eE"
  | pjlExitLang                 -- "\e%-12345X"
  | pjlEoj                      -- "@PJL EOJ \r\n"
  | zeroByte                    -- fputc(0)
  | pageOrientation             -- "\e*r0F"
  | rasterPowerCmd (p : Int)    -- "\e&y%dP"
  | rasterSpeedCmd (s : Int)    -- "\e&z%dS"
  | rHeightT (n : Nat)          -- "\e*r%dT"
  | rWidthS (n : Nat)           -- "\e*r%dS"
  | rasterCompression (n : Nat) -- "\e*b%dM"
  | rasterDirection             -- "\e&y1O"
  | rasterStartCmd              -- "\e*r1A"
  | rasterEndCmd                -- "\e*rC"
  | eofByte (b : Nat)           -- fputc(26) / fputc(4)
  | rPosY (n : Nat)             -- "\e*p%dY"
  | rPosX (n : Nat)             -- "\e*p%dX"
  | rTransfer (n : Int)         -- "\e*b%dA"
  | rWriteLen (n : Nat)         -- "\e*b%dW"
  | rByte (b : Nat)             -- fputc of a packed byte or filler
  | hpglStart                   -- "\e%1B"
  | vIN                         -- "IN;"
  | vXRpre (fr : Int)           -- "XR%04d;"
  | vYPpre (p : Int)            -- "YP%03d;"
  | vZSpre (s : Int)            -- "ZS%03d;"
  | vPenUpSep                   -- ";PU"
  | vZSXR (s fr : Int)          -- ";ZS%03d;XR%04d;"
  | vYP (p : Int)               -- ";YP%03d;"
  | vPU (x y : Int)             -- "PU%d,%d"
  | vSemi                       -- ";"
  | vPD                         -- ";PD"
  | vComma                      -- ","
  | vXY (x y : Int)             -- "%d,%d"
  | vCloseXY (x y : Int)        -- ",%d,%d"
  | vEndHPGL                    -- "\e%0B"
  | vStartHPGLPU                -- "\e%1BPU"
deriving DecidableEq

/-! ## Vector encoder (`generate_vector`)

The vector file is a line-oriented text stream; each line is a tag
letter followed by numbers (`M<y>,<x>`, `L<y>,<x>`, `C`, `P<p>`, `X`).
The lines are modelled pre-parsed as `VCmd` (the `sscanf` coordinate
order is y-then-x, kept in the constructor argument order). -/

/-- One parsed line of the vector command stream. -/
inductive VCmd
  | M (y x : Int)
  | L (y x : Int)
  | C
  | P (p : Int)
  | X
deriving DecidableEq

/-- The additional HPGL X offset (the `HPGLX` define, 0). -/
def HPGLX : Int := 0

/-- The additional HPGL Y offset (the `HPGLY` define, 0). -/
def HPGLY : Int := 0

/-- The local state of `generate_vector`: pen up/down, "last command
was a move" flag, HPGL-started flag, subpath start point, last line
endpoint, and current power. -/
structure VState where
  up : Bool
  newline : Bool
  started : Bool
  sx : Int
  sy : Int
  lx : Int
  ly : Int
  power : Int
deriving DecidableEq

/-- Initial state of `generate_vector` (`up = 1`, `newline = 1`,
`started = 0`, `power = 100`). -/
def initVState : VState :=
  { up := true, newline := true, started := false,
    sx := 0, sy := 0, lx := 0, ly := 0, power := 100 }

/-- The power/speed/frequency computation of the `P` command: the
effective power is `(x·vector_power + 50)/100`; when the configured
speed is below 100 (and the power is non-trivial) all values are
rescaled by `r = min(10000/x, 10000/speed, 500000/freq)`. -/
def vectorPowerScale (x vp vs vf : Int) : Int × Int × Int :=
  let epower := (x * vp + 50) / 100
  if vs ≠ 0 ∧ vs < 100 then
    let espeed := vs
    let efreq := vf
    if epower ≠ 0 ∧ x < 100 then
      let r0 := 10000 / x
      let q1 := 10000 / espeed
      let r1 := if q1 < r0 then q1 else r0
      let q2 := 500000 / efreq
      let r2 := if q2 < r1 then q2 else r1
      let epower2 := (50 + epower * r2) / 100
      let espeed2 := (50 + espeed * r2) / 100
      let efreq2 := (50 + espeed2 * r2) / 100  -- the source scales espeed here, not efreq
      (epower2, espeed2, efreq2)
    else (epower, espeed, efreq)
  else (epower, vs, vf)

/-- Processing of one vector command: emitted items, new state, new
per-tile `passstart` flag, and whether the tile scan stops (`X`).
Every recognized command line starts with an alphabetic character, so
the lazy per-tile preamble (`IN;`, frequency, power, speed) is emitted
before the first command of each tile. -/
def vectorStep (vp vs vf basex basey offx offy : Int) (st : VState)
    (passstart : Bool) : VCmd → List Out × VState × Bool × Bool
  | cmd =>
    let pre : List Out :=
      if passstart then []
      else [Out.vIN, Out.vXRpre vf, Out.vYPpre vp, Out.vZSpre vs]
    match cmd with
    | .M y x => (pre, { st with sx := x, sy := y, newline := true }, true, false)
    | .C =>
      if st.newline = false ∧ st.up = false ∧ (st.lx ≠ st.sx ∨ st.ly ≠ st.sy) then
        (pre ++ [Out.vCloseXY (basex + offx + st.sx + HPGLX)
                  (basey + offy + st.sy + HPGLY)], st, true, false)
      else (pre, st, true, false)
    | .P x =>
      if x ≠ st.power then
        let puOut : List Out := if st.up then [] else [Out.vPenUpSep]
        let st1 := { st with power := x, started := true, up := true }
        let esf := vectorPowerScale x vp vs vf
        let zsxr : List Out :=
          if vs ≠ 0 ∧ vs < 100 then [Out.vZSXR esf.2.1 esf.2.2] else []
        (pre ++ puOut ++ zsxr ++ [Out.vYP esf.1], st1, true, false)
      else (pre, st, true, false)
    | .L y x =>
      let st1 := { st with started := true }
      let moveOut : List Out :=
        if st1.newline then
          (if st1.up then [] else [Out.vSemi]) ++
            [Out.vPU (basex + offx + st1.sx + HPGLX) (basey + offy + st1.sy + HPGLY)]
        else []
      let st2 :=
        if st1.newline then { st1 with up := true, newline := false } else st1
      let penOut : List Out := if st2.up then [Out.vPD] else [Out.vComma]
      let st3 := { st2 with up := false }
      let coordOut := [Out.vXY (basex + offx + x + HPGLX) (basey + offy + y + HPGLY)]
      (pre ++ moveOut ++ penOut ++ coordOut, { st3 with lx := x, ly := y }, true, false)
    | .X => (pre, st, true, true)

/-- One tile of `generate_vector`: the command stream is scanned from
the start (the file is rewound per tile); `X` stops the scan early. -/
def vectorTile (vp vs vf basex basey offx offy : Int) :
    Bool → VState → List VCmd → List Out × VState
  | _, st, [] => ([], st)
  | passstart, st, c :: rest =>
    let r := vectorStep vp vs vf basex basey offx offy st passstart c
    if r.2.2.2 then (r.1, r.2.1)
    else
      let rec2 := vectorTile vp vs vf basex basey offx offy r.2.2.1 r.2.1 rest
      (r.1 ++ rec2.1, rec2.2)

/-- The tile offsets of the repeat loops
(`for (off = dim*(rep-1); off >= 0; off -= dim)`), for `dim ≥ 1`. -/
def tileOffsets (dim rep : Nat) : List Nat :=
  (List.range rep).map (fun i => dim * (rep - 1 - i))

/-- Translation of `generate_vector`: the state persists across tiles,
the per-tile `passstart` flag resets, and the closing sequence (`;`,
leave HPGL when anything was drawn, then enter-HPGL + pen-up) ends the
output. -/
def generate_vector (vp vs vf basex basey : Int) (width height : Nat)
    (x_repeat y_repeat : Nat) (cmds : List VCmd) : List Out :=
  let pairs :=
    ((tileOffsets height y_repeat).map
      (fun oy => (tileOffsets width x_repeat).map (fun ox => (ox, oy)))).join
  let run := pairs.foldl
    (fun (acc : List Out × VState) (p : Nat × Nat) =>
      let r := vectorTile vp vs vf basex basey (p.1 : Int) (p.2 : Int)
        false acc.2 cmds
      (acc.1 ++ r.1, r.2))
    ([], initVState)
  let fin :=
    (if run.2.started then
      (if run.2.up then [] else [Out.vSemi]) ++ [Out.vEndHPGL]
     else []) ++ [Out.vStartHPGLPU]
  run.1 ++ fin

/-- The emission trace of `generate_vector` for the spec's test input
`M0,0  P50  L100,0  C` with the default configuration (vector power 50,
speed 100, frequency 5000, no tiling, no centering). -/
def c9Trace : List Out :=
  generate_vector 50 100 5000 0 0 1728 864 1 1
    [VCmd.M 0 0, VCmd.P 50, VCmd.L 100 0, VCmd.C]

/-! ## Raster encoder (`generate_raster`)

The bitmap header fields (width, height, data offset) are modelled as
parameters; `fread` of a row is `List.take`/`List.drop` on the pixel
data, and a short read shows up as a chunk shorter than the requested
stride.  The repeat count is the default `RASTER_REPEAT = 1`. -/

/-- Power scaling of one processed byte
(`buf[l] = (uint8_t)buf[l] * raster_power / 255`). -/
def powerScale (rpower : Int) (v : Nat) : Nat :=
  ((v : Int) * rpower / 255).toNat

/-- Bytes per bitmap row, padded to a 4-byte boundary: colour rows are
`h*3` pixels bytes wide, grey and mono rows `h` bytes (`h` is the
byte width of one line of the output). -/
def rowStride (mode : Char) (h : Nat) : Nat :=
  if mode = 'c' then (h * 3 + 3) / 4 * 4 else (h + 3) / 4 * 4

/-- Transformation of one row chunk into the `h` working bytes: colour
pixels go through the separation classifier then power scaling, grey
bytes are inverted then power scaled, mono bytes are used as read. -/
def processRow (mode : Char) (rpower : Int) (pass h : Nat)
    (chunk : List Nat) : List Nat :=
  if mode = 'c' then
    (List.range h).map (fun i =>
      powerScale rpower
        (colourPixel (chunk.getD (3 * i) 0) (chunk.getD (3 * i + 1) 0)
          (chunk.getD (3 * i + 2) 0) pass))
  else if mode = 'g' then
    (List.range h).map (fun i => powerScale rpower (255 - chunk.getD i 0))
  else chunk.take h

/-- Emission for one scan line: trim the blank margin, emit the
position commands for the active range only, reverse the range when
travelling right-to-left (serpentine), pack it and pad to a multiple
of 8; a fully blank line emits nothing and keeps the direction. -/
def emitLine (cg : Bool) (basex basey y : Nat) (row : List Nat)
    (dir : Bool) : List Out × Bool :=
  let h := row.length
  let l := row.findIdx (fun b => b != 0)
  if h ≤ l then ([], dir)
  else
    let r := h - (row.reverse.takeWhile (fun b => b == 0)).length
    let seg := (row.drop l).take (r - l)
    let seg2 := if dir then seg.reverse else seg
    let packed := pack seg2
    ([Out.rPosY (basey + y),
      Out.rPosX (basex + (if cg then l else l * 8)),
      Out.rTransfer (if dir then -((r - l : Nat) : Int) else ((r - l : Nat) : Int)),
      Out.rWriteLen ((packed.length + 7) / 8 * 8)] ++
        (padTo8 packed).map Out.rByte,
      !dir)

/-- The per-pass scan-line loop of `generate_raster`: `y` runs from
`height - 1` down to 0; a row stride exceeding the 102400-byte working
buffer ("Too wide") or a short read ("Bad bit data") aborts
immediately with failure. -/
def rasterLines (mode : Char) (rpower : Int) (pass h d basex basey : Nat) :
    Nat → Bool → List Nat → List Out × Bool
  | 0, _, _ => ([], true)
  | y + 1, dir, data =>
    if 102400 < d then ([], false)
    else
      let chunk := data.take d
      if chunk.length ≠ d then ([], false)
      else
        let row := processRow mode rpower pass h chunk
        let e := emitLine (mode = 'c' ∨ mode = 'g') basex basey y row dir
        let rest := rasterLines mode rpower pass h d basex basey y e.2 (data.drop d)
        (e.1 ++ rest.1, rest.2)

/-- Sequential run of emission steps with early exit on failure (a
`return false` inside the loops of `generate_raster` abandons the
remaining tiles and passes). -/
def runSeq {α : Type} (f : α → List Out × Bool) : List α → List Out × Bool
  | [] => ([], true)
  | a :: rest =>
    let r := f a
    if r.2 then
      let r2 := runSeq f rest
      (r.1 ++ r2.1, r2.2)
    else (r.1, r.2)

/-- Translation of `generate_raster` (one repeat, the default): the
preamble commands, then for each tile offset (x outer, y inner) and
each separation pass the scan-line loop over the rewound pixel data,
and — only if nothing failed — the end-of-raster command and the
two end-of-file marker bytes. -/
def generate_raster (mode : Char) (rpower rspeed : Int)
    (width height x_repeat y_repeat : Nat) (data : List Nat)
    (basex basey : Nat) : List Out × Bool :=
  let h := if mode = 'c' ∨ mode = 'g' then width else (width + 7) / 8
  let d := rowStride mode h
  let preamble : List Out :=
    [Out.pageOrientation,
     Out.rasterPowerCmd (rasterPowerField mode rpower),
     Out.rasterSpeedCmd rspeed,
     Out.rHeightT (height * y_repeat),
     Out.rWidthS (width * x_repeat),
     Out.rasterCompression (if mode = 'c' ∨ mode = 'g' then 7 else 2),
     Out.rasterDirection,
     Out.rasterStartCmd]
  let combos : List (Nat × Nat × Nat) :=
    ((tileOffsets width x_repeat).map (fun ox =>
      ((tileOffsets height y_repeat).map (fun oy =>
        (List.range (rasterPasses mode)).map
          (fun pass => (ox, oy, pass)))).join)).join
  let body := runSeq
    (fun t => rasterLines mode rpower t.2.2 h d (basex + t.1) (basey + t.2.1)
      height false data)
    combos
  if body.2 then
    (preamble ++ body.1 ++ [Out.rasterEndCmd, Out.eofByte 26, Out.eofByte 4], true)
  else (preamble ++ body.1, false)

/-! ## Job composer (`generate_pjl`) -/

/-- Translation of `generate_pjl`: header and page setup, the raster
block when raster power is non-zero and the mode is not 'n', the
vector page reset and vector block when vector power is non-zero, the
footer, and 4096 zero bytes.  The boolean result of the
`generate_raster` call is discarded by the source, so the function
always returns `true`. -/
def generate_pjl (cfg : JobCfg) (width height : Nat) (data : List Nat)
    (cmds : List VCmd) (basex basey : Nat) : List Out × Bool :=
  let header : List Out :=
    [Out.pjlJobHeader, Out.pjlEnterLang, Out.autofocusCmd cfg.focus,
     Out.leftReg, Out.topReg, Out.resolutionCmd cfg.resolution,
     Out.posX0, Out.posY0, Out.pclRes cfg.resolution]
  let rasterPart : List Out :=
    if cfg.raster_power ≠ 0 ∧ cfg.raster_mode ≠ 'n' then
      Out.rasterYC ::
        (generate_raster cfg.raster_mode cfg.raster_power cfg.raster_speed
          width height cfg.x_repeat cfg.y_repeat data basex basey).1
    else []
  let vectorPart : List Out :=
    if cfg.vector_power ≠ 0 then
      [Out.pjlEnterLang, Out.pageOrientation,
       Out.rHeightT (height * cfg.y_repeat), Out.rWidthS (width * cfg.x_repeat),
       Out.rasterStartCmd, Out.rasterEndCmd, Out.hpglStart] ++
        generate_vector cfg.vector_power cfg.vector_speed cfg.vector_freq
          (basex : Int) (basey : Int) width height cfg.x_repeat cfg.y_repeat cmds
    else []
  (header ++ rasterPart ++ vectorPart ++
    [Out.pjlReset, Out.pjlExitLang, Out.pjlEoj] ++
    List.replicate 4096 Out.zeroByte, true)

/-- The composed job stream as the spec describes it: job-language
entry header, page setup, a raster block iff raster power > 0 and the
mode is not 'none', a vector-mode page reset plus vector block iff
vector power > 0, the job-language footer, and exactly 4096 trailing
zero bytes — the raster pass preceding the vector pass. -/
def composedJobSpec (cfg : JobCfg) (width height : Nat) (data : List Nat)
    (cmds : List VCmd) (basex basey : Nat) : List Out :=
  let entryHeader : List Out := [Out.pjlJobHeader, Out.pjlEnterLang]
  let pageSetup : List Out :=
    [Out.autofocusCmd cfg.focus, Out.leftReg, Out.topReg,
     Out.resolutionCmd cfg.resolution, Out.posX0, Out.posY0,
     Out.pclRes cfg.resolution]
  let rasterBlock : List Out :=
    if 0 < cfg.raster_power ∧ cfg.raster_mode ≠ 'n' then
      Out.rasterYC ::
        (generate_raster cfg.raster_mode cfg.raster_power cfg.raster_speed
          width height cfg.x_repeat cfg.y_repeat data basex basey).1
    else []
  let vectorBlock : List Out :=
    if 0 < cfg.vector_power then
      [Out.pjlEnterLang, Out.pageOrientation,
       Out.rHeightT (height * cfg.y_repeat), Out.rWidthS (width * cfg.x_repeat),
       Out.rasterStartCmd, Out.rasterEndCmd, Out.hpglStart] ++
        generate_vector cfg.vector_power cfg.vector_speed cfg.vector_freq
          (basex : Int) (basey : Int) width height cfg.x_repeat cfg.y_repeat cmds
    else []
  let footer : List Out := [Out.pjlReset, Out.pjlExitLang, Out.pjlEoj]
  let trailer : List Out := List.replicate 4096 Out.zeroByte
  entryHeader ++ pageSetup ++ rasterBlock ++ vectorBlock ++ footer ++ trailer

/-! ## Printer delivery (`printer_connect`, `printer_send`)

`printer_connect` retries resolution+connect up to `timeout` times,
sleeping one second after every failed attempt; exhaustion returns the
sentinel descriptor `-1`.  One attempt is modelled as a function from
the attempt index to the resulting descriptor (negative = failure).
`printer_send` talks LPD on the returned descriptor: its reads of the
single acknowledgement byte are modelled by an `ack` stream on a valid
descriptor; on an invalid descriptor `read(2)` fails and leaves the
(uninitialised) `lpdres` byte at its arbitrary initial value
`garbage`, and `write(2)` transmits nothing. -/

/-- The retry loop of `printer_connect`: returns the descriptor and
the number of one-second sleeps performed. -/
def connectLoop (attempt : Nat → Int) (i : Nat) : Nat → Int × Nat
  | 0 => (-1, 0)
  | n + 1 =>
    if 0 ≤ attempt i then (attempt i, 0)
    else
      let r := connectLoop attempt (i + 1) n
      (r.1, r.2 + 1)

/-- Translation of `printer_connect host timeout`. -/
def printer_connect (attempt : Nat → Int) (timeout : Nat) : Int × Nat :=
  connectLoop attempt 0 timeout

/-- The LPD writes attempted by `printer_send`, in protocol order. -/
inductive LpdWrite
  | queueCmd      -- "\002<queue>\n"
  | cfaAnnounce   -- "\002<len> cfA<job><host>\n"
  | controlBlock  -- the H/P/J/ldfA/UdfA/N control records
  | dfaAnnounce   -- "\003<size> dfA<job><host>\n"
  | dataBytes     -- the composed job payload, streamed to the socket
deriving DecidableEq

/-- Outcome of `printer_send`: the writes attempted on the socket, the
boolean result, and the "Bad response from <host>, <code>" report (if
any). -/
structure SendResult where
  writes : List LpdWrite
  ok : Bool
  badResponse : Option (String × Nat)
deriving DecidableEq

/-- Translation of `printer_send`: connect (with the 300-attempt
ceiling `PRINTER_MAX_WAIT`), then the queue-receive command, control
announce, control block and data announce, each followed by reading
one acknowledgement byte that must be zero; the payload is streamed
last and the connection closed without waiting for a final response.
A read on a failed descriptor leaves the acknowledgement byte at
`garbage`.  The source never checks the descriptor for the `-1`
sentinel. -/
def printer_send (host : String) (attempt : Nat → Int) (ack : Nat → Nat)
    (garbage : Nat) : SendResult :=
  let fd := (printer_connect attempt 300).1
  let rd : Nat → Nat := fun i => if fd < 0 then garbage else ack i
  let a0 := rd 0
  if a0 ≠ 0 then ⟨[.queueCmd], false, some (host, a0)⟩
  else
    let a1 := rd 1
    if a1 ≠ 0 then ⟨[.queueCmd, .cfaAnnounce], false, some (host, a1)⟩
    else
      let a2 := rd 2
      if a2 ≠ 0 then
        ⟨[.queueCmd, .cfaAnnounce, .controlBlock], false, some (host, a2)⟩
      else
        let a3 := rd 3
        if a3 ≠ 0 then
          ⟨[.queueCmd, .cfaAnnounce, .controlBlock, .dfaAnnounce],
            false, some (host, a3)⟩
        else
          ⟨[.queueCmd, .cfaAnnounce, .controlBlock, .dfaAnnounce, .dataBytes],
            true, none⟩

/-! ## Theorems -/

theorem runLen_le_fuel (v : Nat) : ∀ f xs, runLen v f xs ≤ f := by
  intro f
  induction f with
  | zero => intro xs; simp [runLen]
  | succ f ih =>
    intro xs
    cases xs with
    | nil => simp [runLen]
    | cons a t =>
      simp only [runLen]
      split
      · have := ih t; omega
      · omega

theorem runLen_le_length (v : Nat) : ∀ f xs, runLen v f xs ≤ xs.length := by
  intro f
  induction f with
  | zero => intro xs; simp [runLen]
  | succ f ih =>
    intro xs
    cases xs with
    | nil => simp [runLen]
    | cons a t =>
      simp only [runLen, List.length_cons]
      split
      · have := ih t; omega
      · omega

theorem runLen_take (v : Nat) :
    ∀ f xs, xs.take (runLen v f xs) = List.replicate (runLen v f xs) v := by
  intro f
  induction f with
  | zero => intro xs; simp [runLen]
  | succ f ih =>
    intro xs
    cases xs with
    | nil => simp [runLen]
    | cons a t =>
      simp only [runLen]
      split
      · rename_i hav
        subst hav
        rw [Nat.add_comm 1 (runLen a f t)]
        simp only [List.take_succ_cons, List.replicate_succ]
        rw [ih t]
      · simp

theorem litLen_le_fuel : ∀ f xs, litLen f xs ≤ f := by
  intro f
  induction f with
  | zero => intro xs; simp [litLen]
  | succ f ih =>
    intro xs
    match xs with
    | [] => simp [litLen]
    | [a] => simp [litLen]
    | a :: b :: t =>
      simp only [litLen]
      split
      · omega
      · have := ih (b :: t); omega

theorem litLen_le_length : ∀ f xs, litLen f xs ≤ xs.length := by
  intro f
  induction f with
  | zero => intro xs; simp [litLen]
  | succ f ih =>
    intro xs
    match xs with
    | [] => simp [litLen]
    | [a] => simp [litLen]
    | a :: b :: t =>
      simp only [litLen, List.length_cons]
      split
      · omega
      · have := ih (b :: t)
        simp only [List.length_cons] at this
        omega

theorem litLen_pos (a : Nat) (t : List Nat)
    (h : ¬ 2 ≤ runLen a 128 (a :: t)) : 1 ≤ litLen 127 (a :: t) := by
  match t with
  | [] => simp [litLen]
  | b :: t' =>
    simp only [runLen, if_pos rfl] at h
    have hb : ¬ b = a := by
      intro hba
      simp [runLen, hba] at h
      omega
    simp only [litLen]
    rw [if_neg (fun hab => hb hab.symm)]
    omega

theorem unpack_cons128 (rest : List Nat) : unpack (128 :: rest) = unpack rest := by
  rw [unpack.eq_def]
  simp

theorem unpack_run (c : Nat) (h1 : 128 < c) (v : Nat) (rest : List Nat) :
    unpack (c :: v :: rest) = List.replicate (257 - c) v ++ unpack rest := by
  rw [unpack.eq_def]
  have h2 : ¬ c = 128 := by omega
  simp [h2, h1]

theorem unpack_lit (c : Nat) (h1 : c < 128) (rest : List Nat) :
    unpack (c :: rest) = rest.take (c + 1) ++ unpack (rest.drop (c + 1)) := by
  rw [unpack.eq_def]
  have h2 : ¬ c = 128 := by omega
  have h3 : ¬ 128 < c := by omega
  simp [h2, h3]

theorem unpack_replicate_128 : ∀ p, unpack (List.replicate p 128) = [] := by
  intro p
  induction p with
  | zero => simp [unpack]
  | succ p ih => rw [List.replicate_succ, unpack_cons128, ih]

theorem packF_unpack :
    ∀ f xs ys, xs.length ≤ f →
      unpack (packF f xs ++ ys) = xs ++ unpack ys := by
  intro f
  induction f with
  | zero =>
    intro xs ys h
    have : xs = [] := List.eq_nil_of_length_eq_zero (Nat.le_zero.mp h)
    subst this
    simp [packF]
  | succ f ih =>
    intro xs ys h
    cases xs with
    | nil => simp [packF]
    | cons a t =>
      by_cases h2 : 2 ≤ runLen a 128 (a :: t)
      · -- run branch
        have hk128 : runLen a 128 (a :: t) ≤ 128 := runLen_le_fuel a 128 (a :: t)
        have hklen : runLen a 128 (a :: t) ≤ (a :: t).length :=
          runLen_le_length a 128 (a :: t)
        simp only [packF, if_pos h2]
        rw [List.cons_append, List.cons_append]
        rw [unpack_run _ (by omega) _ _]
        have hsub : 257 - (257 - runLen a 128 (a :: t)) = runLen a 128 (a :: t) := by
          omega
        rw [hsub]
        have hdroplen : ((a :: t).drop (runLen a 128 (a :: t))).length ≤ f := by
          simp only [List.length_drop, List.length_cons]
          simp only [List.length_cons] at h hklen
          omega
        rw [ih _ ys hdroplen]
        rw [show List.replicate (runLen a 128 (a :: t)) a
              = (a :: t).take (runLen a 128 (a :: t)) from
            (runLen_take a 128 (a :: t)).symm]
        rw [← List.append_assoc, List.take_append_drop]
      · -- literal branch
        have hm1 : 1 ≤ litLen 127 (a :: t) := litLen_pos a t h2
        have hm127 : litLen 127 (a :: t) ≤ 127 := litLen_le_fuel 127 (a :: t)
        have hmlen : litLen 127 (a :: t) ≤ (a :: t).length :=
          litLen_le_length 127 (a :: t)
        simp only [packF, if_neg h2]
        rw [List.cons_append, List.append_assoc]
        rw [unpack_lit _ (by omega) _]
        rw [show litLen 127 (a :: t) - 1 + 1 = litLen 127 (a :: t) from by omega]
        have hlt : ((a :: t).take (litLen 127 (a :: t))).length
            = litLen 127 (a :: t) := by
          simp only [List.length_take]
          omega
        rw [List.take_append_of_le_length (le_of_eq hlt.symm)]
        rw [List.take_take, min_self]
        rw [List.drop_append_of_le_length (le_of_eq hlt.symm)]
        rw [List.drop_eq_nil_of_le (le_of_eq hlt), List.nil_append]
        have hdroplen : ((a :: t).drop (litLen 127 (a :: t))).length ≤ f := by
          simp only [List.length_drop, List.length_cons]
          simp only [List.length_cons] at h hmlen
          omega
        rw [ih _ ys hdroplen]
        rw [← List.append_assoc, List.take_append_drop]

/-- Claim C1: packing a scan line's active byte range (runs of 2–128
identical bytes become `257 − length` plus the byte, literal stretches
of up to 127 bytes become `length − 1` plus the bytes, and the packed
stream is padded to a multiple of 8 with the filler 0x80) and unpacking
under that scheme reproduces the original byte sequence exactly, for
every range that fits the working buffer. -/
theorem c1_roundtrip (xs : List Nat) (h : xs.length ≤ 102400) :
    unpack (padTo8 (pack xs)) = xs := by
  unfold padTo8 pack
  rw [packF_unpack xs.length xs _ le_rfl, unpack_replicate_128,
    List.append_nil]

theorem c1_roundtrip_witness :
    ([3, 3, 3, 1, 2, 2].length ≤ 102400) ∧
      unpack (padTo8 (pack [3, 3, 3, 1, 2, 2])) = [3, 3, 3, 1, 2, 2] :=
  ⟨by decide, c1_roundtrip [3, 3, 3, 1, 2, 2] (by decide)⟩

theorem c10pattern_length : ∀ k, (c10pattern k).length = 3 * k := by
  intro k
  induction k with
  | zero => simp [c10pattern]
  | succ k ih => simp [c10pattern, ih]; omega

theorem runLen_two_c10pattern : ∀ f k, runLen 2 f (c10pattern k) = 0 := by
  intro f k
  cases k with
  | zero =>
    cases f with
    | zero => simp [runLen, c10pattern]
    | succ f => simp [runLen, c10pattern]
  | succ k =>
    cases f with
    | zero => simp [runLen]
    | succ f => simp [runLen, c10pattern]

theorem packF_c10pattern :
    ∀ k f, 3 * k ≤ f → (packF f (c10pattern k)).length = 4 * k := by
  intro k
  induction k with
  | zero =>
    intro f _
    cases f with
    | zero => simp [packF, c10pattern]
    | succ f => simp [packF, c10pattern]
  | succ k ih =>
    intro f hf
    match f, hf with
    | f1 + 1, hf =>
      have hrun1 : runLen 1 128 (1 :: 2 :: 2 :: c10pattern k) = 1 := by
        simp [runLen]
      have hlit1 : litLen 127 (1 :: 2 :: 2 :: c10pattern k) = 1 := by
        simp [litLen]
      simp only [c10pattern, packF, hrun1, hlit1]
      norm_num
      match f1, hf with
      | f2 + 1, hf =>
        have hrun2 : runLen 2 128 (2 :: 2 :: c10pattern k) = 2 := by
          simp [runLen, runLen_two_c10pattern]
        simp only [packF, hrun2]
        norm_num
        have : (packF f2 (c10pattern k)).length = 4 * k := by
          apply ih
          omega
        simp [List.length_append, this]
        omega

theorem c10_counterexample :
    (pack [1, 2, 2, 1, 2, 2]).length = 8 ∧
      ¬ ((pack [1, 2, 2, 1, 2, 2]).length ≤ 6 + (6 + 126) / 127) := by
  constructor
  · decide
  · decide

/-- Claim C10 (amended): the packer can expand its input by a factor of
4/3 — each 1,2,2 triple costs a 2-byte literal plus a 2-byte run — so a
102399-byte active range (within the 102400-byte working buffer) packs
to 136532 bytes, which exceeds the 102400·5/4 + 1 = 128001-byte pack
array: the pack buffer can overflow. -/
theorem c10_amended :
    (c10pattern 34133).length = 102399 ∧
      (pack (c10pattern 34133)).length = 136532 ∧
      (c10pattern 34133).length ≤ 102400 ∧
      102400 * 5 / 4 + 1 = 128001 ∧
      128001 < 136532 := by
  have hlen := c10pattern_length 34133
  have hp : (packF (c10pattern 34133).length (c10pattern 34133)).length
      = 4 * 34133 := by
    apply packF_c10pattern
    rw [hlen]
  refine ⟨by rw [hlen], ?_, by rw [hlen]; norm_num, by norm_num, by norm_num⟩
  unfold pack
  rw [hp]

theorem range_checks_in_range (c : JobCfg) : cfgInRange (range_checks c) := by
  unfold cfgInRange range_checks
  refine ⟨?_, ?_, ?_, ?_, ?_, ?_, ?_, ?_, ?_, ?_, ?_, ?_, ?_⟩ <;>
    (simp only []; split_ifs <;> omega)

theorem range_checks_id_of_in_range (c : JobCfg) (h : cfgInRange c) :
    range_checks c = c := by
  obtain ⟨h1, h2, h3, h4, h5, h6, h7, h8, h9, h10, h11, h12, h13⟩ := h
  unfold range_checks
  cases c
  simp_all only [JobCfg.mk.injEq]
  refine ⟨?_, ?_, ?_, ?_, ?_, ?_, ?_, ?_, ?_, ?_, ?_⟩ <;>
    first
      | trivial
      | (split_ifs <;> omega)

/-- Claim C4: before encoding, every bounded configuration field is
silently clamped to its nearest documented bound (raster power 0–100,
raster speed 1–100, resolution 75–1200, screen size ≥ 1, vector
frequency 10–5000, vector power 0–100, vector speed 1–100); clamping an
in-range configuration is a no-op, and the spec's examples hold:
raster_power 150 → 100, resolution 50 → 75, vector_freq 6000 → 5000. -/
theorem c4_range_checks :
    (∀ c : JobCfg, cfgInRange (range_checks c)) ∧
    (∀ c : JobCfg, cfgInRange c → range_checks c = c) ∧
    (range_checks ⟨150, 100, 600, 8, 5000, 50, 30, 'm', 0, 1, 1⟩).raster_power
      = 100 ∧
    (range_checks ⟨40, 100, 50, 8, 5000, 50, 30, 'm', 0, 1, 1⟩).resolution
      = 75 ∧
    (range_checks ⟨40, 100, 600, 8, 6000, 50, 30, 'm', 0, 1, 1⟩).vector_freq
      = 5000 :=
  ⟨range_checks_in_range, range_checks_id_of_in_range,
    by decide, by decide, by decide⟩

theorem c4_range_checks_witness :
    range_checks ⟨40, 100, 600, 8, 5000, 50, 30, 'm', 0, 1, 1⟩
      = ⟨40, 100, 600, 8, 5000, 50, 30, 'm', 0, 1, 1⟩ :=
  c4_range_checks.2.1 ⟨40, 100, 600, 8, 5000, 50, 30, 'm', 0, 1, 1⟩ (by decide)

theorem c5_counterexample :
    colourPassIndices = [0, 1, 2, 3, 4, 5, 6] ∧
      colourPassIndices ≠ [1, 2, 3, 4, 5, 6, 7] ∧
      colourMask 100 100 100 = 0 ∧
      colourPixel 100 100 100 0 = 155 ∧
      (155 : Nat) ≠ 0 := by
  refine ⟨by decide, by decide, by decide, by decide, by decide⟩

/-- Claim C5 (amended): in colour mode each channel is saturated iff
its value exceeds 240; 7 separation passes are emitted with pass
indices 0–6 equal to the 3-bit saturation-mask values (mask 0, no
saturated channel, is the "grey" pass; pixels whose mask is 7 have no
pass and are blank everywhere); a pixel contributes its inverted
luminance — the average of its non-saturated channels — to the pass
equal to its mask and blank (inverted 255, i.e. byte 0) to every other
pass; and the device raster power field is forced to 100. -/
theorem c5_amended :
    colourPassIndices = [0, 1, 2, 3, 4, 5, 6] ∧
    (∀ c0 c1 c2 pass : Nat,
      colourPixel c0 c1 c2 pass =
        if colourMask c0 c1 c2 = pass ∧ colourMask c0 c1 c2 ≠ 7 then
          255 - colourLum c0 c1 c2
        else 0) ∧
    (∀ rp : Int, rasterPowerField 'c' rp = 100) := by
  refine ⟨by decide, ?_, fun rp => rfl⟩
  intro c0 c1 c2 pass
  by_cases h0 : 240 < c0 <;> by_cases h1 : 240 < c1 <;> by_cases h2 : 240 < c2 <;>
    simp only [colourPixel, colourMask, colourN, colourV, colourLum,
      if_pos, if_neg, h0, h1, h2, if_true, if_false, ite_true, ite_false] <;>
    split_ifs <;> simp_all <;> omega

theorem c2_freq_from_speed :
    vectorPowerScale 50 100 50 5000 = (50, 50, 50) ∧
      (50 + 5000 * (100 : Int)) / 100 = 5000 ∧
      (vectorPowerScale 50 100 50 5000).2.2 ≠ (50 + 5000 * (100 : Int)) / 100 := by
  refine ⟨by decide, by decide, by decide⟩

theorem c9_counterexample :
    Out.vPU 0 0 ∈ c9Trace ∧ Out.vYP 25 ∈ c9Trace ∧
      ¬ (c9Trace.indexOf (Out.vPU 0 0) < c9Trace.indexOf (Out.vYP 25)) := by
  refine ⟨by decide, by decide, by decide⟩

/-- Claim C9 (amended): for the input `M0,0 P50 L100,0 C` with
configured vector speed 100 the encoder first emits the per-tile
preamble (`IN;`, frequency 5000, nominal power 50, speed 100), then —
at the `P` command, before any repositioning — the power setter at 50%
of nominal power (`;YP025;`), then the pen-up reposition to (0,0) and
the pen-down line draw to the `L100,0` point at the first `L` command,
then the close back to (0,0), then the closing `;`, leave-HPGL and
enter-HPGL/pen-up sequence. -/
theorem c9_amended :
    c9Trace =
      [Out.vIN, Out.vXRpre 5000, Out.vYPpre 50, Out.vZSpre 100,
       Out.vYP 25, Out.vPU 0 0, Out.vPD, Out.vXY 0 100,
       Out.vCloseXY 0 0, Out.vSemi, Out.vEndHPGL, Out.vStartHPGLPU] := by
  decide

theorem c3_raster_failure_ignored :
    (generate_raster 'c' 40 100 34134 1 1 1 [] 0 0).2 = false ∧
    (generate_raster 'c' 40 100 34134 1 1 1 [] 0 0).1 =
      [Out.pageOrientation, Out.rasterPowerCmd 100, Out.rasterSpeedCmd 100,
       Out.rHeightT 1, Out.rWidthS 34134, Out.rasterCompression 7,
       Out.rasterDirection, Out.rasterStartCmd] ∧
    (generate_raster 'm' 40 100 8 1 1 1 [1] 0 0).2 = false ∧
    (generate_pjl ⟨40, 100, 600, 8, 5000, 0, 30, 'c', 0, 1, 1⟩
        34134 1 [] [] 0 0).2 = true := by
  refine ⟨by decide, by decide, by decide, rfl⟩

/-- Claim C6: for every configuration (clamped by `range_checks`, as
`main` does before composing the job), the composed job stream is the
fixed-order composition of entry header, page setup, a raster block
iff raster power > 0 and the mode is not 'n', a vector page reset plus
vector block iff vector power > 0, the footer, and exactly 4096
trailing zero bytes — the raster pass preceding the vector pass. -/
theorem c6_composition (c : JobCfg) (width height : Nat) (data : List Nat)
    (cmds : List VCmd) (basex basey : Nat) :
    (generate_pjl (range_checks c) width height data cmds basex basey).1
      = composedJobSpec (range_checks c) width height data cmds basex basey := by
  obtain ⟨h1, h2, h3, h4, h5, h6, h7, h8, h9, h10, h11, h12, h13⟩ :=
    range_checks_in_range c
  have e1 : ((range_checks c).raster_power ≠ 0)
      = (0 < (range_checks c).raster_power) := by
    apply propext
    constructor <;> intro <;> omega
  have e2 : ((range_checks c).vector_power ≠ 0)
      = (0 < (range_checks c).vector_power) := by
    apply propext
    constructor <;> intro <;> omega
  unfold generate_pjl composedJobSpec
  simp only [e1, e2, List.append_assoc, List.cons_append, List.nil_append]

theorem c6_composition_witness :
    (generate_pjl
        (range_checks ⟨40, 100, 600, 8, 5000, 50, 30, 'm', 0, 1, 1⟩)
        8 1 [0, 0, 0, 0] [VCmd.M 0 0] 0 0).1
      = composedJobSpec
          (range_checks ⟨40, 100, 600, 8, 5000, 50, 30, 'm', 0, 1, 1⟩)
          8 1 [0, 0, 0, 0] [VCmd.M 0 0] 0 0 :=
  c6_composition ⟨40, 100, 600, 8, 5000, 50, 30, 'm', 0, 1, 1⟩ 8 1
    [0, 0, 0, 0] [VCmd.M 0 0] 0 0

/-- Claim C7: when the acknowledgement byte read after the LPD
queue-receive command is non-zero (on a successfully connected
socket), `printer_send` aborts with failure having written only the
queue-receive command — no control or data bytes — and reports the
host and the response code. -/
theorem c7_abort_on_bad_ack (host : String) (attempt : Nat → Int)
    (ack : Nat → Nat) (garbage : Nat)
    (hfd : 0 ≤ (printer_connect attempt 300).1) (hack : ack 0 ≠ 0) :
    printer_send host attempt ack garbage
      = ⟨[LpdWrite.queueCmd], false, some (host, ack 0)⟩ := by
  unfold printer_send
  have hneg : ¬ ((printer_connect attempt 300).1 < 0) := by omega
  simp only [hneg, if_false, ite_false]
  rw [if_pos hack]

theorem c7_abort_witness :
    printer_send "epilog" (fun _ => 3) (fun _ => 1) 0
      = ⟨[LpdWrite.queueCmd], false, some ("epilog", 1)⟩ :=
  c7_abort_on_bad_ack "epilog" (fun _ => 3) (fun _ => 1) 0 (by decide)
    (by decide)

theorem connectLoop_all_fail (attempt : Nat → Int)
    (h : ∀ i, attempt i < 0) : ∀ n i, connectLoop attempt i n = (-1, n) := by
  intro n
  induction n with
  | zero => intro i; rfl
  | succ n ih =>
    intro i
    have : ¬ (0 ≤ attempt i) := by have := h i; omega
    simp only [connectLoop, this, if_false, ite_false, ih (i + 1)]

/-- Claim C8 (code evaluation): when every resolution+connect attempt
fails, `printer_connect` retries with a one-second sleep after each of
its 300 attempts and returns the `-1` sentinel; but `printer_send`
never checks the sentinel — with the uninitialised acknowledgement
byte happening to be zero it walks the entire protocol against the
invalid descriptor and returns `true`, so delivery does not fail. -/
theorem c8_connect_exhaustion (host : String) (attempt : Nat → Int)
    (ack : Nat → Nat) (h : ∀ i, attempt i < 0) :
    printer_connect attempt 300 = (-1, 300) ∧
      (printer_send host attempt ack 0).ok = true := by
  have hc : printer_connect attempt 300 = (-1, 300) :=
    connectLoop_all_fail attempt h 300 0
  refine ⟨hc, ?_⟩
  unfold printer_send
  rw [hc]
  simp

theorem c8_connect_witness :
    printer_connect (fun _ => -1) 300 = (-1, 300) ∧
      (printer_send "epilog" (fun _ => -1) (fun _ => 0) 0).ok = true :=
  c8_connect_exhaustion "epilog" (fun _ => -1) (fun _ => 0)
    (fun _ => show ((-1 : Int) < 0) from by decide)
